import Mathlib

/-!
Verification of the OCR backend pipeline (`src/backend/main.py`) of the
Handwriting-Tesseract-OCR repository.

The service is a thin orchestration layer over OpenCV and Tesseract.  The
external library primitives (grayscale conversion, cubic resampling,
denoising, CLAHE, the two thresholding kernels, the OCR engine itself, JPEG
encoding) are black boxes for the backend code: we model each one as an
explicit parameter (a pixel kernel in `CVKernels`, an `Except`-valued engine
result), while every decision the backend itself makes — the resize guard and
its arithmetic, the black-pixel tie-break, the confidence filter, the
longer-string selection, the colour tiers, the drawing on a copy, the
response assembly and the exception handling — is translated from the Python
source.  Python's float arithmetic is modelled exactly: each float operation
computes the exact rational result and rounds it to the nearest IEEE-754
binary64 value through `fl` (round to nearest, ties to even); `int()`
truncation and `round(x, n)` banker's rounding are modelled explicitly
below.
-/

/-- A decoded 3-channel colour image (`cv2.imdecode(..., cv2.IMREAD_COLOR)`):
a height × width grid of BGR pixels. -/
structure ColorImage where
  height : Nat
  width : Nat
  pixel : Nat → Nat → Nat × Nat × Nat

/-- A single-channel intensity image (what `preprocess_image` manipulates). -/
structure GrayImage where
  height : Nat
  width : Nat
  pixel : Nat → Nat → Nat

/-- Python `int()` applied to an exact rational value: truncation toward
zero. -/
def pyInt (q : ℚ) : ℤ := if 0 ≤ q then ⌊q⌋ else -⌊-q⌋

/-- Python `round()` to an integer on an exact rational value: round half to
even. -/
def pyRoundInt (q : ℚ) : ℤ :=
  if q - ⌊q⌋ < 1/2 then ⌊q⌋
  else if (1/2 : ℚ) < q - ⌊q⌋ then ⌊q⌋ + 1
  else if ⌊q⌋ % 2 = 0 then ⌊q⌋ else ⌊q⌋ + 1

/-- Python `round(q, 2)` on an exact rational value. -/
def pyRound2 (q : ℚ) : ℚ := (pyRoundInt (q * 100) : ℚ) / 100

/-- The exponent of the IEEE-754 binary64 grid around a positive value: the
doubles near `q` are the multiples of `2 ^ (⌊log₂ q⌋ - 52)` (53-bit
significand). -/
def flExp (q : ℚ) : ℤ := Int.log 2 q - 52

/-- Round a positive rational to the nearest binary64 value, ties to even:
round the significand `q / 2 ^ flExp q` (which lies in `[2^52, 2^53)`) to
the nearest integer and scale back. -/
def flPos (q : ℚ) : ℚ :=
  (pyRoundInt (q / (2:ℚ) ^ flExp q) : ℚ) * (2:ℚ) ^ flExp q

/-- Round an exact rational to the nearest IEEE-754 binary64 value (the
`fl` of numerical analysis: round to nearest, ties to even; overflow and
subnormals do not occur in the magnitudes this file handles).  CPython
evaluates each float operation of the source exactly and rounds once:
`2000 / width` (int/int true division is correctly rounded), the
int-to-float conversions of `width` and `height`, and the products with
`scale` all go through `fl`. -/
def fl (q : ℚ) : ℚ :=
  if 0 < q then flPos q else if q < 0 then -flPos (-q) else 0

/-- Whitespace as Python's `str.strip()` sees it (space, tab, newline,
carriage return, vertical tab, form feed). -/
def isPySpace (c : Char) : Bool :=
  c = ' ' || c = '\t' || c = '\n' || c = '\r' || c = Char.ofNat 11 || c = Char.ofNat 12

/-- `str.strip()` on a character list: drop whitespace from both ends. -/
def stripL (l : List Char) : List Char :=
  ((l.dropWhile isPySpace).reverse.dropWhile isPySpace).reverse

/-- Python `str.strip()`. -/
def pyStrip (s : String) : String := String.mk (stripL s.data)

/-- The OpenCV primitives `preprocess_image` delegates to.  The backend only
relies on each of them returning an image of the expected shape; the pixel
contents are library-defined, so they are kernels here.  `resizePix`
receives the source image and the target width and height that
`preprocess_image` computed, `cv2.resize`'s arguments. -/
structure CVKernels where
  cvtPix : ColorImage → Nat → Nat → Nat
  resizePix : GrayImage → Nat → Nat → Nat → Nat → Nat
  denoisePix : GrayImage → Nat → Nat → Nat
  clahePix : GrayImage → Nat → Nat → Nat
  adaptivePix : GrayImage → Nat → Nat → Nat
  blurPix : GrayImage → Nat → Nat → Nat
  otsuPix : GrayImage → Nat → Nat → Nat

/-- `gray = cv2.cvtColor(image, cv2.COLOR_BGR2GRAY)`: same grid, one
channel. -/
def grayOf (k : CVKernels) (image : ColorImage) : GrayImage :=
  ⟨image.height, image.width, k.cvtPix image⟩

/-- The resize guard of `preprocess_image`: if `width < 2000`, compute
`scale = 2000 / width`, `new_width = int(width * scale)`,
`new_height = int(height * scale)` and resize to `(new_width, new_height)`
(cubic interpolation); otherwise keep the grayscale image.  The arithmetic
is Python float (IEEE binary64) arithmetic: the division is correctly
rounded (`fl`), the int operands convert to doubles (`fl`), each product is
rounded (`fl`), and `int()` truncates toward zero — so `new_width` is NOT
always 2000: the doubly rounded product `width * (2000 / width)` falls just
below 2000 for some widths (e.g. 666) and truncates to 1999. -/
def resizedOf (k : CVKernels) (image : ColorImage) : GrayImage :=
  let gray := grayOf k image
  if gray.width < 2000 then
    let scale : ℚ := fl (2000 / (gray.width : ℚ))
    let new_width := (pyInt (fl (fl (gray.width : ℚ) * scale))).toNat
    let new_height := (pyInt (fl (fl (gray.height : ℚ) * scale))).toNat
    ⟨new_height, new_width, k.resizePix gray new_width new_height⟩
  else gray

/-- `denoised = cv2.fastNlMeansDenoising(gray, None, 10, 7, 21)`. -/
def denoisedOf (k : CVKernels) (image : ColorImage) : GrayImage :=
  let g := resizedOf k image
  ⟨g.height, g.width, k.denoisePix g⟩

/-- `contrast = clahe.apply(denoised)` with clip limit 2.0, 8×8 tiles. -/
def contrastOf (k : CVKernels) (image : ColorImage) : GrayImage :=
  let d := denoisedOf k image
  ⟨d.height, d.width, k.clahePix d⟩

/-- `adaptive = cv2.adaptiveThreshold(contrast, 255, GAUSSIAN_C, BINARY, 11, 2)`. -/
def adaptiveOf (k : CVKernels) (image : ColorImage) : GrayImage :=
  let c := contrastOf k image
  ⟨c.height, c.width, k.adaptivePix c⟩

/-- `blur = cv2.GaussianBlur(contrast, (5,5), 0)`. -/
def blurOf (k : CVKernels) (image : ColorImage) : GrayImage :=
  let c := contrastOf k image
  ⟨c.height, c.width, k.blurPix c⟩

/-- `_, otsu = cv2.threshold(blur, 0, 255, THRESH_BINARY + THRESH_OTSU)`. -/
def otsuOf (k : CVKernels) (image : ColorImage) : GrayImage :=
  let b := blurOf k image
  ⟨b.height, b.width, k.otsuPix b⟩

/-- `np.sum(img == 0)`: how many pixels of the image are zero (black). -/
def countBlack (g : GrayImage) : Nat :=
  ((List.range g.height).map
    (fun i => ((List.range g.width).filter (fun j => g.pixel i j == 0)).length)).sum

/-- `preprocess_image`: grayscale, the resize guard, denoise, CLAHE, the two
binarizations, then return `otsu` when it has strictly more black pixels
than `adaptive`, else `adaptive`. -/
def preprocess_image (k : CVKernels) (image : ColorImage) : GrayImage :=
  if countBlack (otsuOf k image) > countBlack (adaptiveOf k image) then otsuOf k image
  else adaptiveOf k image

/-- One row of `pytesseract.image_to_data(..., output_type=DICT)`: the raw
text together with the integer geometry and confidence columns, after the
source's `int()` conversions. -/
structure OcrWord where
  text : String
  left : Int
  top : Int
  width : Int
  height : Int
  conf : Int
deriving DecidableEq

/-- One recognized word as the backend returns it: stripped text, pixel
geometry, `float(conf)` confidence. -/
structure TextBox where
  text : String
  x : Int
  y : Int
  width : Int
  height : Int
  confidence : ℚ
deriving DecidableEq

/-- The dict the loop of `detect_text_regions` appends for a retained word. -/
def mkTextBox (w : OcrWord) : TextBox :=
  ⟨pyStrip w.text, w.left, w.top, w.width, w.height, (w.conf : ℚ)⟩

/-- The filtering loop of `detect_text_regions`: keep a word only when
`conf > 30` and its stripped text is non-empty. -/
def filter_boxes : List OcrWord → List TextBox
  | [] => []
  | w :: ws =>
    if 30 < w.conf then
      if pyStrip w.text ≠ "" then mkTextBox w :: filter_boxes ws
      else filter_boxes ws
    else filter_boxes ws

/-- `detect_text_regions` after `preprocess_image`: the engine invocation
(`image_to_data`, `--oem 3 --psm 3`) either raises — caught, logged, and
turned into `[]` — or yields the word rows, which are filtered. -/
def detect_text_regions (r : Except String (List OcrWord)) : List TextBox :=
  match r with
  | .error _ => []
  | .ok ws => filter_boxes ws

/-- The selection of `extract_text`: return `text2.strip()` when it is
strictly longer than `text1.strip()`, else `text1.strip()` (`text1` is the
`--psm 3` full-page pass, `text2` the `--psm 6` single-block pass). -/
def select_longer (text1 text2 : String) : String :=
  if (pyStrip text2).length > (pyStrip text1).length then pyStrip text2
  else pyStrip text1

/-- `extract_text` after `preprocess_image`: both engine invocations sit in
one `try`; if either raises the function returns `""`, otherwise the longer
stripped output wins. -/
def extract_text (r1 r2 : Except String String) : String :=
  match r1, r2 with
  | .ok t1, .ok t2 => select_longer t1 t2
  | _, _ => ""

/-- A BGR colour triple as the source writes them. -/
abbrev BGRColor := Nat × Nat × Nat

/-- The confidence tiering of `draw_bounding_boxes`: `> 70` green `(0,255,0)`,
`elif > 50` orange `(255,165,0)`, else red `(0,0,255)`. -/
def boxColor (confidence : ℚ) : BGRColor :=
  if confidence > 70 then (0, 255, 0)
  else if confidence > 50 then (255, 165, 0)
  else (0, 0, 255)

/-- The two in-place OpenCV drawing calls of `draw_bounding_boxes`, as
opaque buffer transformations: `cv2.rectangle(buf, pt1, pt2, color, 2)` and
`cv2.putText(buf, label, org, font, 0.5, color, 1)`. -/
structure DrawOps (α : Type) where
  rectangle : α → Int × Int → Int × Int → BGRColor → Nat → α
  putText : α → String → Int × Int → BGRColor → α

/-- The body of the drawing loop for one box: rectangle from `(x, y)` to
`(x + w, y + h)` with the tier colour and thickness 2, then the label
`f"{confidence:.0f}%"` at `(x, y - 5)`. -/
def drawOne {α : Type} (ops : DrawOps α) (buf : α) (box : TextBox) : α :=
  let color := boxColor box.confidence
  let buf2 := ops.rectangle buf (box.x, box.y)
    (box.x + box.width, box.y + box.height) color 2
  ops.putText buf2 (toString (pyRoundInt box.confidence) ++ "%") (box.x, box.y - 5) color

/-- `draw_bounding_boxes` over an explicit buffer store, so that the Python
aliasing is visible: the store is the list of live image buffers, an image
is an index into it, `image.copy()` allocates a fresh buffer at the end of
the store, and each drawing call mutates the buffer it is given in place.
Returns the store after the loop together with the index of
`result_image`. -/
def draw_bounding_boxes {α : Type} [Inhabited α] (ops : DrawOps α)
    (store : List α) (image : Nat) (boxes : List TextBox) : List α × Nat :=
  let result_image := store.length
  let store1 := store ++ [store.getD image default]
  (boxes.foldl
    (fun s box => s.set result_image (drawOne ops (s.getD result_image default) box))
    store1, result_image)

/-- `fastapi.HTTPException(status_code, detail)`. -/
structure HTTPExc where
  status_code : Nat
  detail : String
deriving DecidableEq

/-- Python `str()` of an `HTTPException`: `f"{status_code}: {detail}"`. -/
def strOfExc (e : HTTPExc) : String := toString e.status_code ++ ": " ++ e.detail

/-- The `data` object of a success response of `/process-ocr`. -/
structure OcrData where
  text : String
  average_confidence : ℚ
  rotation_angle : Nat
  text_boxes : List TextBox
  processed_image : String
  total_boxes : Nat
deriving DecidableEq

/-- The `try:` body of `process_ocr`.  Decoding yielded `decoded`
(`none` when `cv2.imdecode` cannot decode the upload); `dataRes`, `r1`, `r2`
are the three engine invocation outcomes, `encoded` the base64 text of the
re-encoded annotated JPEG.  A `None` image raises
`HTTPException(400, "Invalid image file")`; otherwise the response is
assembled, with `np.mean` of the confidences (0 when no boxes) rounded to
two decimals. -/
def process_ocr_try (decoded : Option ColorImage)
    (dataRes : Except String (List OcrWord)) (r1 r2 : Except String String)
    (encoded : String) : Except HTTPExc OcrData :=
  match decoded with
  | none => .error ⟨400, "Invalid image file"⟩
  | some _ =>
    let text_boxes := detect_text_regions dataRes
    let extracted_text := extract_text r1 r2
    let avg_conf : ℚ :=
      if text_boxes.isEmpty then 0
      else ((text_boxes.map (fun b => b.confidence)).sum) / (text_boxes.length : ℚ)
    .ok
      { text := if extracted_text ≠ "" then extracted_text
          else "Tidak dapat mendeteksi teks",
        average_confidence := pyRound2 avg_conf,
        rotation_angle := 0,
        text_boxes := text_boxes,
        processed_image := "data:image/jpeg;base64," ++ encoded,
        total_boxes := text_boxes.length }

/-- `process_ocr`: the `try` body wrapped in `except Exception as e`, which
catches every exception — `fastapi.HTTPException` is an `Exception` subclass,
so the 400 raised for an undecodable image is caught here too — and
re-raises `HTTPException(500, f"Processing error: {str(e)}")`. -/
def process_ocr (decoded : Option ColorImage)
    (dataRes : Except String (List OcrWord)) (r1 r2 : Except String String)
    (encoded : String) : Except HTTPExc OcrData :=
  match process_ocr_try decoded dataRes r1 r2 encoded with
  | .error e => .error ⟨500, "Processing error: " ++ strOfExc e⟩
  | .ok d => .ok d

/-- The `average_confidence` field of a response, 0 on an error response. -/
def respAvg (r : Except HTTPExc OcrData) : ℚ :=
  match r with
  | .ok d => d.average_confidence
  | .error _ => 0

/-- The `text_boxes` field of a response, `[]` on an error response. -/
def respBoxes (r : Except HTTPExc OcrData) : List TextBox :=
  match r with
  | .ok d => d.text_boxes
  | .error _ => []

/-! Helper lemmas about the preprocessing pipeline's shape. -/

theorem preprocess_image_height (k : CVKernels) (img : ColorImage) :
    (preprocess_image k img).height = (resizedOf k img).height := by
  unfold preprocess_image
  split
  · rfl
  · rfl

theorem preprocess_image_width (k : CVKernels) (img : ColorImage) :
    (preprocess_image k img).width = (resizedOf k img).width := by
  unfold preprocess_image
  split
  · rfl
  · rfl

theorem resizedOf_of_ge (k : CVKernels) (img : ColorImage) (h : 2000 ≤ img.width) :
    resizedOf k img = grayOf k img := by
  simp only [resizedOf, grayOf]
  rw [if_neg (by omega)]

theorem resizedOf_width_of_lt (k : CVKernels) (img : ColorImage) (h : img.width < 2000) :
    (resizedOf k img).width
      = (pyInt (fl (fl (img.width : ℚ) * fl (2000 / (img.width : ℚ))))).toNat := by
  simp only [resizedOf, grayOf]
  rw [if_pos h]

theorem resizedOf_height_of_lt (k : CVKernels) (img : ColorImage) (h : img.width < 2000) :
    (resizedOf k img).height
      = (pyInt (fl (fl (img.height : ℚ) * fl (2000 / (img.width : ℚ))))).toNat := by
  simp only [resizedOf, grayOf]
  rw [if_pos h]

/-! Facts about the binary64 rounding `fl`: the relative error of one
rounding is at most `2 ^ (-53)`, and `fl` can be evaluated at a concrete
positive rational once its binary exponent is exhibited. -/

theorem pyRoundInt_bounds (x : ℚ) :
    x - 1/2 ≤ (pyRoundInt x : ℚ) ∧ (pyRoundInt x : ℚ) ≤ x + 1/2 := by
  have hf1 : (⌊x⌋ : ℚ) ≤ x := Int.floor_le x
  have hf2 : x < (⌊x⌋ : ℚ) + 1 := Int.lt_floor_add_one x
  unfold pyRoundInt
  split_ifs with h1 h2 h3 <;> constructor <;> push_cast <;> linarith

theorem fl_error (q : ℚ) (hq : 0 < q) :
    q - q / 2^53 ≤ fl q ∧ fl q ≤ q + q / 2^53 := by
  have h2q : (0:ℚ) < (2:ℚ) ^ flExp q := zpow_pos (by norm_num) _
  have hfl : fl q = (pyRoundInt (q / (2:ℚ) ^ flExp q) : ℚ) * (2:ℚ) ^ flExp q := by
    rw [fl, if_pos hq]
    rfl
  obtain ⟨h1, h2⟩ := pyRoundInt_bounds (q / (2:ℚ) ^ flExp q)
  have hEbound : (2:ℚ) ^ flExp q ≤ q / 2^52 := by
    have hlog : ((2:ℕ):ℚ) ^ Int.log 2 q ≤ q := Int.zpow_log_le_self (by norm_num) hq
    have hlog2 : (2:ℚ) ^ Int.log 2 q ≤ q := by push_cast at hlog; exact hlog
    have hsplit : (2:ℚ) ^ flExp q = (2:ℚ) ^ Int.log 2 q / (2:ℚ) ^ (52:ℤ) := by
      rw [show flExp q = Int.log 2 q - 52 from rfl, zpow_sub₀ (by norm_num : (2:ℚ) ≠ 0)]
    rw [hsplit, show ((2:ℚ) ^ (52:ℤ)) = (2:ℚ)^(52:ℕ) by norm_num]
    exact div_le_div_of_nonneg_right hlog2 (by positivity) |>.trans_eq rfl
  have hcan : (q / (2:ℚ) ^ flExp q) * (2:ℚ) ^ flExp q = q :=
    div_mul_cancel₀ _ (ne_of_gt h2q)
  have hmul1 := mul_le_mul_of_nonneg_right h1 (le_of_lt h2q)
  have hmul2 := mul_le_mul_of_nonneg_right h2 (le_of_lt h2q)
  rw [sub_mul, hcan] at hmul1
  rw [add_mul, hcan] at hmul2
  rw [hfl]
  have hhalf : (1/2 : ℚ) * (2:ℚ) ^ flExp q ≤ q / 2^53 := by
    have := hEbound
    nlinarith [h2q]
  constructor <;> nlinarith [hmul1, hmul2, hhalf, h2q]

/-- The doubly rounded width product `fl(fl(width) * fl(2000 / width))`,
truncated by `int()`, always lands on 1999 or 2000: three roundings each
contribute a relative error of at most `2 ^ (-53)`, far too small to leave
the interval `(1999, 2001)` around 2000. -/
theorem pyInt_fl_width_bounds (w : ℕ) (hw : 0 < w) :
    1999 ≤ pyInt (fl (fl (w:ℚ) * fl (2000 / (w:ℚ)))) ∧
    pyInt (fl (fl (w:ℚ) * fl (2000 / (w:ℚ)))) ≤ 2000 := by
  have hw0 : (0:ℚ) < (w:ℚ) := by exact_mod_cast hw
  have hq0 : (0:ℚ) < 2000 / (w:ℚ) := by positivity
  obtain ⟨ha1, ha2⟩ := fl_error ((w:ℚ)) hw0
  obtain ⟨hb1, hb2⟩ := fl_error (2000 / (w:ℚ)) hq0
  have hdw : (w:ℚ) / 2^53 < (w:ℚ) := div_lt_self hw0 (by norm_num)
  have hdq : (2000 / (w:ℚ)) / 2^53 < 2000 / (w:ℚ) := div_lt_self hq0 (by norm_num)
  have hfw0 : 0 < fl (w:ℚ) := by linarith
  have hfs0 : 0 < fl (2000 / (w:ℚ)) := by linarith
  have hprod0 : 0 < fl (w:ℚ) * fl (2000 / (w:ℚ)) := mul_pos hfw0 hfs0
  obtain ⟨hc1, hc2⟩ := fl_error (fl (w:ℚ) * fl (2000 / (w:ℚ))) hprod0
  have hub : fl (w:ℚ) * fl (2000 / (w:ℚ))
      ≤ ((w:ℚ) + (w:ℚ)/2^53) * ((2000 / (w:ℚ)) + (2000 / (w:ℚ))/2^53) := by
    apply mul_le_mul ha2 hb2 (le_of_lt hfs0) (by positivity)
  have hlb : ((w:ℚ) - (w:ℚ)/2^53) * ((2000 / (w:ℚ)) - (2000 / (w:ℚ))/2^53)
      ≤ fl (w:ℚ) * fl (2000 / (w:ℚ)) := by
    apply mul_le_mul ha1 hb1 (by linarith) (le_of_lt hfw0)
  have hubv : ((w:ℚ) + (w:ℚ)/2^53) * ((2000 / (w:ℚ)) + (2000 / (w:ℚ))/2^53)
      = 2000 * (1 + 1/2^53)^2 := by
    field_simp
    ring
  have hlbv : ((w:ℚ) - (w:ℚ)/2^53) * ((2000 / (w:ℚ)) - (2000 / (w:ℚ))/2^53)
      = 2000 * (1 - 1/2^53)^2 := by
    field_simp
    ring
  rw [hubv] at hub
  rw [hlbv] at hlb
  have hp1 : 1999 < fl (fl (w:ℚ) * fl (2000 / (w:ℚ))) := by
    have hstep : fl (w:ℚ) * fl (2000 / (w:ℚ))
        - (fl (w:ℚ) * fl (2000 / (w:ℚ))) / 2^53
        ≥ (2000 * (1 - 1/2^53)^2) * (1 - 1/2^53) := by
      nlinarith [hlb, hub, hprod0]
    have hnum : (1999:ℚ) < (2000 * (1 - 1/2^53)^2) * (1 - 1/2^53) := by norm_num
    linarith [hc1]
  have hp2 : fl (fl (w:ℚ) * fl (2000 / (w:ℚ))) < 2001 := by
    have hstep : fl (w:ℚ) * fl (2000 / (w:ℚ))
        + (fl (w:ℚ) * fl (2000 / (w:ℚ))) / 2^53
        ≤ (2000 * (1 + 1/2^53)^2) * (1 + 1/2^53) := by
      nlinarith [hub, hprod0]
    have hnum : (2000 * (1 + 1/2^53)^2) * (1 + 1/2^53) < (2001:ℚ) := by norm_num
    linarith [hc2]
  have hppos : (0:ℚ) ≤ fl (fl (w:ℚ) * fl (2000 / (w:ℚ))) := by linarith
  rw [pyInt, if_pos hppos]
  constructor
  · exact Int.le_floor.mpr (by push_cast; linarith)
  · have := Int.floor_lt.mpr
      (show fl (fl (w:ℚ) * fl (2000 / (w:ℚ))) < ((2001:ℤ):ℚ) by push_cast; linarith)
    omega

theorem int_log_eq_of (q : ℚ) (e : ℤ) (hq : 0 < q)
    (h1 : (2:ℚ)^e ≤ q) (h2 : q < (2:ℚ)^(e+1)) : Int.log 2 q = e := by
  have hcast : ((2:ℕ):ℚ) = (2:ℚ) := by norm_num
  have ha : e ≤ Int.log 2 q :=
    (Int.zpow_le_iff_le_log (by norm_num) hq).mp (by rw [hcast]; exact h1)
  have hb : Int.log 2 q < e + 1 :=
    (Int.lt_zpow_iff_log_lt (by norm_num) hq).mp (by rw [hcast]; exact h2)
  omega

theorem fl_eval (q : ℚ) (e : ℤ) (hq : 0 < q)
    (h1 : (2:ℚ)^e ≤ q) (h2 : q < (2:ℚ)^(e+1)) :
    fl q = (pyRoundInt (q / (2:ℚ)^(e-52)) : ℚ) * (2:ℚ)^(e-52) := by
  rw [fl, if_pos hq, flPos, flExp, int_log_eq_of q e hq h1 h2]

theorem pyRoundInt_down (x : ℚ) (m : ℤ) (hfloor : ⌊x⌋ = m) (hlt : x - m < 1/2) :
    pyRoundInt x = m := by
  rw [pyRoundInt, hfloor, if_pos hlt]

theorem fl_one : fl (1:ℚ) = 1 := by
  rw [fl_eval 1 0 (by norm_num) (by norm_num) (by norm_num)]
  rw [show (1:ℚ) / (2:ℚ)^(0-52 : ℤ) = 4503599627370496 by norm_num]
  rw [pyRoundInt_down _ 4503599627370496 (by norm_num) (by norm_num)]
  norm_num

theorem fl_2000_3 : fl ((2000:ℚ)/3) = 5864062014805333 / 2^43 := by
  rw [fl_eval ((2000:ℚ)/3) 9 (by norm_num) (by norm_num) (by norm_num)]
  rw [show ((2000:ℚ)/3) / (2:ℚ)^(9-52 : ℤ) = 17592186044416000/3 by norm_num]
  rw [pyRoundInt_down _ 5864062014805333 (by norm_num) (by norm_num)]
  norm_num

theorem fl_s1 : fl ((5864062014805333:ℚ) / 2^43) = 5864062014805333 / 2^43 := by
  rw [fl_eval _ 9 (by norm_num) (by norm_num) (by norm_num)]
  rw [show ((5864062014805333:ℚ)/2^43) / (2:ℚ)^(9-52 : ℤ) = 5864062014805333 by norm_num]
  rw [pyRoundInt_down _ 5864062014805333 (by norm_num) (by norm_num)]
  norm_num

theorem fl_666 : fl ((666:ℚ)) = 666 := by
  rw [fl_eval _ 9 (by norm_num) (by norm_num) (by norm_num)]
  rw [show ((666:ℚ)) / (2:ℚ)^(9-52 : ℤ) = 5858197952790528 by norm_num]
  rw [pyRoundInt_down _ 5858197952790528 (by norm_num) (by norm_num)]
  norm_num

theorem fl_2000_666 : fl ((2000:ℚ)/666) = 6762161602658402 / 2^51 := by
  rw [fl_eval _ 1 (by norm_num) (by norm_num) (by norm_num)]
  rw [show ((2000:ℚ)/666) / (2:ℚ)^(1-52 : ℤ) = 2251799813685248000/333 by norm_num]
  rw [pyRoundInt_down _ 6762161602658402 (by norm_num) (by norm_num)]
  norm_num

theorem fl_prod666 :
    fl ((666:ℚ) * (6762161602658402 / 2^51)) = 8796093022207999 / 2^42 := by
  rw [fl_eval _ 10 (by norm_num) (by norm_num) (by norm_num)]
  rw [show ((666:ℚ) * (6762161602658402 / 2^51)) / (2:ℚ)^(10-52 : ℤ)
      = 1125899906842623933/128 by norm_num]
  rw [pyRoundInt_down _ 8796093022207999 (by norm_num) (by norm_num)]
  norm_num

/-- All-zero stand-ins for the OpenCV pixel kernels, used to instantiate the
theorems at concrete inputs. -/
def kZero : CVKernels :=
  ⟨fun _ _ _ => 0, fun _ _ _ _ _ => 0, fun _ _ _ => 0, fun _ _ _ => 0,
    fun _ _ _ => 0, fun _ _ _ => 0, fun _ _ _ => 0⟩

/-- A 1 × 3 colour image (height 1, width 3). -/
def img13 : ColorImage := ⟨1, 3, fun _ _ => (0, 0, 0)⟩

/-- A 1 × 666 colour image (height 1, width 666): one of the widths whose
double-precision resize product truncates to 1999. -/
def img666 : ColorImage := ⟨1, 666, fun _ _ => (0, 0, 0)⟩

/-- A 1 × 2000 colour image (height 1, width 2000). -/
def img2000 : ColorImage := ⟨1, 2000, fun _ _ => (0, 0, 0)⟩

/-- C2 (corrected): for a decodable colour image of positive width,
`preprocess_image` returns a single-channel image (by type) whose width is
at least 1999; when the input width is below 2000 both dimensions are the
double-precision products `dimension * (2000 / width)` TRUNCATED toward
zero by Python's `int()` (not rounded to nearest), and the output width is
1999 or 2000 (1999 exactly when the doubly rounded product falls just below
2000, as it does for width 666 — see the counterexample). -/
theorem claim_C2_amended (k : CVKernels) (img : ColorImage) (hw : 0 < img.width) :
    1999 ≤ (preprocess_image k img).width ∧
    (img.width < 2000 →
      (preprocess_image k img).width
          = (pyInt (fl (fl (img.width : ℚ) * fl (2000 / (img.width : ℚ))))).toNat ∧
      (preprocess_image k img).width ≤ 2000 ∧
      (preprocess_image k img).height
          = (pyInt (fl (fl (img.height : ℚ) * fl (2000 / (img.width : ℚ))))).toNat) := by
  rw [preprocess_image_width, preprocess_image_height]
  by_cases h : img.width < 2000
  · obtain ⟨hlo, hhi⟩ := pyInt_fl_width_bounds img.width hw
    rw [resizedOf_width_of_lt k img h, resizedOf_height_of_lt k img h]
    exact ⟨by omega, fun _ => ⟨rfl, by omega, rfl⟩⟩
  · rw [resizedOf_of_ge k img (by omega)]
    exact ⟨by show 1999 ≤ img.width; omega, fun hlt => absurd hlt h⟩

/-- C2 witness: the amended claim at the concrete 1 × 3 image. -/
theorem claim_C2_amended_witness :
    1999 ≤ (preprocess_image kZero img13).width ∧
    (img13.width < 2000 →
      (preprocess_image kZero img13).width
          = (pyInt (fl (fl (img13.width : ℚ) * fl (2000 / (img13.width : ℚ))))).toNat ∧
      (preprocess_image kZero img13).width ≤ 2000 ∧
      (preprocess_image kZero img13).height
          = (pyInt (fl (fl (img13.height : ℚ) * fl (2000 / (img13.width : ℚ))))).toNat) :=
  claim_C2_amended kZero img13 (by decide)

/-- C2 counterexample, refuting both quantitative parts of the claim.
Height: on the 1 × 3 image the code computes `int(1 * (2000/3)) = 666`,
while "rounded to the nearest integer" would give 667.  Width: on the
1 × 666 image the double-precision product `666 * (2000/666)` is
`1999.9999999999998`, so the output width is 1999 — not "exactly 2000" and
not "at least 2000". -/
theorem claim_C2_counterexample :
    (preprocess_image kZero img13).height
        ≠ (round ((img13.height : ℚ) * (2000 / (img13.width : ℚ)))).toNat ∧
    (preprocess_image kZero img666).width = 1999 := by
  constructor
  · have h1 : (preprocess_image kZero img13).height = 666 := by
      rw [preprocess_image_height, resizedOf_height_of_lt kZero img13 (by decide)]
      simp only [img13]
      push_cast
      rw [fl_one, fl_2000_3, one_mul, fl_s1, pyInt, if_pos (by positivity)]
      rw [show ⌊(5864062014805333:ℚ)/2^43⌋ = 666 by norm_num]
      rfl
    have h2 : (round ((img13.height : ℚ) * (2000 / (img13.width : ℚ)))).toNat = 667 := by
      rw [round_eq]
      norm_num [img13]
      decide
    rw [h1, h2]
    decide
  · rw [preprocess_image_width, resizedOf_width_of_lt kZero img666 (by decide)]
    simp only [img666]
    push_cast
    rw [fl_666, fl_2000_666, fl_prod666, pyInt, if_pos (by positivity)]
    rw [show ⌊(8796093022207999:ℚ)/2^42⌋ = 1999 by norm_num]
    rfl

/-- C10 (confirmed): when the input width is at least 2000 no resizing
happens — the preprocessed image has exactly the grayscale's (hence the
input's) height and width. -/
theorem claim_C10 (k : CVKernels) (img : ColorImage) (hw : 2000 ≤ img.width) :
    (preprocess_image k img).height = img.height ∧
    (preprocess_image k img).width = img.width := by
  rw [preprocess_image_height, preprocess_image_width, resizedOf_of_ge k img hw]
  exact ⟨rfl, rfl⟩

/-- C10 witness: the claim at the concrete 1 × 2000 image. -/
theorem claim_C10_witness :
    (preprocess_image kZero img2000).height = img2000.height ∧
    (preprocess_image kZero img2000).width = img2000.width :=
  claim_C10 kZero img2000 (by decide)

/-- C5 (confirmed): `preprocess_image` returns the Otsu binarization exactly
when it has strictly more black (zero) pixels than the adaptive one, and the
adaptive binarization whenever the Otsu count is not strictly greater (so on
an exact tie the adaptive image is returned). -/
theorem claim_C5 (k : CVKernels) (img : ColorImage) :
    (countBlack (adaptiveOf k img) < countBlack (otsuOf k img) →
      preprocess_image k img = otsuOf k img) ∧
    (countBlack (otsuOf k img) ≤ countBlack (adaptiveOf k img) →
      preprocess_image k img = adaptiveOf k img) := by
  unfold preprocess_image
  constructor
  · intro h
    rw [if_pos h]
  · intro h
    rw [if_neg (not_lt.mpr h)]

/-- C1 (code bug): when decoding yields no image, the endpoint does NOT
answer 400 — the `HTTPException(400, "Invalid image file")` it raises is an
`Exception`, so the handler's own `except Exception` catches it and
re-raises `HTTPException(500, "Processing error: 400: Invalid image file")`.
This theorem evaluates the orchestrator at the failing input (an undecodable
upload) for every engine outcome and encoding. -/
theorem claim_C1_code_behavior (dataRes : Except String (List OcrWord))
    (r1 r2 : Except String String) (encoded : String) :
    process_ocr none dataRes r1 r2 encoded
      = .error ⟨500, "Processing error: 400: Invalid image file"⟩ := rfl

/-- C8 counterexample: a box with confidence exactly 50 is drawn red
`(0,0,255)`, not orange `(255,165,0)` — the code's orange tier is the
strict `elif confidence > 50`. -/
theorem claim_C8_counterexample :
    boxColor 50 = (0, 0, 255) ∧ boxColor 50 ≠ (255, 165, 0) := by decide

/-- C8 (corrected): the rectangle colour is a function of the confidence
tier alone — `> 70` green, `50 < confidence ≤ 70` orange (the lower bound is
strict, so confidence exactly 50 is red), `≤ 50` red. -/
theorem claim_C8_amended (c : ℚ) :
    (70 < c → boxColor c = (0, 255, 0)) ∧
    (50 < c ∧ c ≤ 70 → boxColor c = (255, 165, 0)) ∧
    (c ≤ 50 → boxColor c = (0, 0, 255)) := by
  unfold boxColor
  refine ⟨fun h => ?_, fun h => ?_, fun h => ?_⟩
  · rw [if_pos (by exact h)]
  · rw [if_neg (by exact not_lt.mpr h.2), if_pos (by exact h.1)]
  · rw [if_neg (by exact not_lt.mpr (le_trans h (by norm_num))),
      if_neg (by exact not_lt.mpr h)]

/-- C9 (confirmed): an engine invocation failure (the `Except.error` case)
is absorbed at the Recognizer boundary: `detect_text_regions` returns `[]`
and `extract_text` returns `""` whichever of its two engine calls raised;
by construction (total functions into `List`/`String`) nothing propagates. -/
theorem claim_C9 (e : String) (r1 r2 : Except String String) :
    detect_text_regions (.error e) = [] ∧
    extract_text (.error e) r2 = "" ∧
    extract_text r1 (.error e) = "" := by
  refine ⟨rfl, ?_, ?_⟩
  · cases r2 <;> rfl
  · cases r1 <;> rfl

/-- C4 (confirmed): when both engine passes return, `extract_text` returns
the longer of the two stripped outputs — the full-page pass `t1` on a tie —
so its length is the max of the two stripped lengths and in particular at
least the min of them. -/
theorem claim_C4 (t1 t2 : String) :
    (extract_text (.ok t1) (.ok t2)).length
        = max (pyStrip t1).length (pyStrip t2).length ∧
    ((pyStrip t2).length ≤ (pyStrip t1).length →
      extract_text (.ok t1) (.ok t2) = pyStrip t1) ∧
    ((pyStrip t1).length < (pyStrip t2).length →
      extract_text (.ok t1) (.ok t2) = pyStrip t2) ∧
    min (pyStrip t1).length (pyStrip t2).length
      ≤ (extract_text (.ok t1) (.ok t2)).length := by
  show (select_longer t1 t2).length = _ ∧ (_ → select_longer t1 t2 = _) ∧
    (_ → select_longer t1 t2 = _) ∧ _ ≤ (select_longer t1 t2).length
  unfold select_longer
  by_cases h : (pyStrip t2).length > (pyStrip t1).length
  · rw [if_pos h]
    exact ⟨by omega, fun h2 => by omega, fun _ => rfl, by omega⟩
  · rw [if_neg h]
    exact ⟨by omega, fun _ => rfl, fun h2 => by omega, by omega⟩

/-! `str.strip()` is idempotent: helper facts for the text filter. -/

theorem stripL_idem (l : List Char) : stripL (stripL l) = stripL l := by
  show List.rdropWhile isPySpace (List.dropWhile isPySpace
      (List.rdropWhile isPySpace (List.dropWhile isPySpace l)))
    = List.rdropWhile isPySpace (List.dropWhile isPySpace l)
  obtain ⟨t, ht⟩ := List.rdropWhile_prefix isPySpace (List.dropWhile isPySpace l)
  have hidem := List.rdropWhile_idempotent isPySpace (List.dropWhile isPySpace l)
  cases hs : List.rdropWhile isPySpace (List.dropWhile isPySpace l) with
  | nil => rfl
  | cons a s =>
    rw [hs] at ht hidem
    have hdd := List.dropWhile_idempotent isPySpace l
    rw [← ht, List.cons_append, List.dropWhile_cons] at hdd
    by_cases hpa : isPySpace a
    · rw [if_pos hpa] at hdd
      have hlen := congrArg List.length hdd
      have hle := (List.dropWhile_suffix (l := s ++ t) isPySpace).length_le
      simp only [List.length_cons] at hlen
      omega
    · rw [List.dropWhile_cons, if_neg hpa]
      exact hidem

theorem pyStrip_idem (s : String) : pyStrip (pyStrip s) = pyStrip s :=
  congrArg String.mk (stripL_idem s.data)

/-- C3 (confirmed): every TextBox `detect_text_regions` returns has
confidence strictly above 30 and text that stays non-empty after stripping;
moreover it arises from an engine word with confidence above 30 whose
stripped text it carries — so words with confidence ≤ 30 or whitespace-only
text never contribute a box. -/
theorem claim_C3 (ws : List OcrWord) (b : TextBox)
    (hb : b ∈ detect_text_regions (.ok ws)) :
    30 < b.confidence ∧ pyStrip b.text ≠ "" ∧
      ∃ w, w ∈ ws ∧ 30 < w.conf ∧ b.text = pyStrip w.text := by
  induction ws with
  | nil => exact absurd hb (List.not_mem_nil b)
  | cons w ws ih =>
    have hbf : b ∈ filter_boxes (w :: ws) := hb
    rw [filter_boxes] at hbf
    by_cases h30 : 30 < w.conf
    · rw [if_pos h30] at hbf
      by_cases hne : pyStrip w.text ≠ ""
      · rw [if_pos hne] at hbf
        rcases List.mem_cons.mp hbf with hb1 | hb2
        · subst hb1
          refine ⟨?_, ?_, w, List.mem_cons_self w ws, h30, rfl⟩
          · show (30 : ℚ) < ((w.conf : ℤ) : ℚ)
            exact_mod_cast h30
          · show pyStrip (pyStrip w.text) ≠ ""
            rw [pyStrip_idem]
            exact hne
        · obtain ⟨hc, hsx, w2, hw2, h32, ht2⟩ := ih hb2
          exact ⟨hc, hsx, w2, List.mem_cons_of_mem w hw2, h32, ht2⟩
      · rw [if_neg hne] at hbf
        obtain ⟨hc, hsx, w2, hw2, h32, ht2⟩ := ih hbf
        exact ⟨hc, hsx, w2, List.mem_cons_of_mem w hw2, h32, ht2⟩
    · rw [if_neg h30] at hbf
      obtain ⟨hc, hsx, w2, hw2, h32, ht2⟩ := ih hbf
      exact ⟨hc, hsx, w2, List.mem_cons_of_mem w hw2, h32, ht2⟩

/-- C3 witness: the claim instantiated on one engine word `"  hi  "` with
confidence 80. -/
theorem claim_C3_witness :
    30 < (TextBox.mk "hi" 1 2 3 4 80).confidence ∧
      pyStrip (TextBox.mk "hi" 1 2 3 4 80).text ≠ "" ∧
      ∃ w, w ∈ [OcrWord.mk "  hi  " 1 2 3 4 80] ∧ 30 < w.conf ∧
        (TextBox.mk "hi" 1 2 3 4 80).text = pyStrip w.text :=
  claim_C3 [OcrWord.mk "  hi  " 1 2 3 4 80] (TextBox.mk "hi" 1 2 3 4 80) (by decide)

/-! Helper lemmas for the drawing loop over the buffer store. -/

theorem foldl_draw_get_ne {α : Type} [Inhabited α] (ops : DrawOps α)
    (boxes : List TextBox) (j i : Nat) (hij : i ≠ j) (s : List α) :
    (boxes.foldl
        (fun s box => s.set j (drawOne ops (s.getD j default) box)) s).get? i
      = s.get? i := by
  induction boxes generalizing s with
  | nil => rfl
  | cons b bs ih =>
    rw [List.foldl_cons, ih]
    exact List.get?_set_ne _ _ (fun h => hij h.symm)

theorem foldl_draw_get_eq {α : Type} [Inhabited α] (ops : DrawOps α)
    (boxes : List TextBox) (j : Nat) (s : List α) (hj : j < s.length) :
    (boxes.foldl
        (fun s box => s.set j (drawOne ops (s.getD j default) box)) s).get? j
      = some (boxes.foldl (drawOne ops) (s.getD j default)) := by
  induction boxes generalizing s with
  | nil =>
    rw [List.foldl_nil, List.foldl_nil, List.getD_eq_get?, List.get?_eq_get hj]
    rfl
  | cons b bs ih =>
    rw [List.foldl_cons, List.foldl_cons,
      ih _ (by rw [List.length_set]; exact hj)]
    have hset : (s.set j (drawOne ops (s.getD j default) b)).getD j default
        = drawOne ops (s.getD j default) b := by
      rw [List.getD_eq_get?, List.get?_set_eq, List.get?_eq_get hj]
      rfl
    rw [hset]

/-- C7 (confirmed): `draw_bounding_boxes` never mutates the caller's image
buffer.  With the store of live buffers explicit, the function allocates a
fresh buffer holding a copy of the input image, the whole drawing loop
writes only to that fresh buffer (which is returned), and the input buffer's
content is identical before and after the call. -/
theorem claim_C7 {α : Type} [Inhabited α] (ops : DrawOps α) (store : List α)
    (image : Nat) (boxes : List TextBox) (h : image < store.length) :
    ((draw_bounding_boxes ops store image boxes).1).get? image = store.get? image ∧
    (draw_bounding_boxes ops store image boxes).2 ≠ image ∧
    ((draw_bounding_boxes ops store image boxes).1).get?
        ((draw_bounding_boxes ops store image boxes).2)
      = some (boxes.foldl (drawOne ops) (store.getD image default)) := by
  refine ⟨?_, ?_, ?_⟩
  · show (boxes.foldl _ (store ++ [store.getD image default])).get? image = _
    rw [foldl_draw_get_ne ops boxes store.length image (Nat.ne_of_lt h)]
    exact List.get?_append h
  · show store.length ≠ image
    omega
  · show (boxes.foldl _ (store ++ [store.getD image default])).get? store.length = _
    rw [foldl_draw_get_eq ops boxes store.length _
      (by rw [List.length_append, List.length_singleton]; omega)]
    have hcopy : (store ++ [store.getD image default]).getD store.length default
        = store.getD image default := by
      rw [List.getD_eq_get?, List.get?_concat_length]
      rfl
    rw [hcopy]

/-- Concrete drawing operations on `Nat` buffers, to instantiate C7. -/
def opsNat : DrawOps Nat := ⟨fun b _ _ _ _ => b + 1, fun b _ _ _ => b * 2⟩

/-- A concrete box with confidence 80. -/
def box80 : TextBox := ⟨"hi", 0, 0, 3, 4, 80⟩

/-- C7 witness: the claim on the concrete two-buffer store `[7, 9]`, drawing
one box over buffer 1. -/
theorem claim_C7_witness :
    ((draw_bounding_boxes opsNat [7, 9] 1 [box80]).1).get? 1 = [7, 9].get? 1 ∧
    (draw_bounding_boxes opsNat [7, 9] 1 [box80]).2 ≠ 1 ∧
    ((draw_bounding_boxes opsNat [7, 9] 1 [box80]).1).get?
        ((draw_bounding_boxes opsNat [7, 9] 1 [box80]).2)
      = some ([box80].foldl (drawOne opsNat) ([7, 9].getD 1 default)) :=
  claim_C7 opsNat [7, 9] 1 [box80] (by decide)

/-! Concrete inputs and rounding values for the average-confidence claim. -/

/-- A 1 × 1 colour image (any decodable image works here). -/
def cimg1 : ColorImage := ⟨1, 1, fun _ _ => (0, 0, 0)⟩

/-- Three engine words with confidences 31, 31, 32. -/
def ws3 : List OcrWord :=
  [⟨"aa", 0, 0, 1, 1, 31⟩, ⟨"bb", 0, 0, 1, 1, 31⟩, ⟨"cc", 0, 0, 1, 1, 32⟩]

/-- The boxes the filter produces from `ws3`. -/
def boxes3 : List TextBox :=
  [⟨"aa", 0, 0, 1, 1, 31⟩, ⟨"bb", 0, 0, 1, 1, 31⟩, ⟨"cc", 0, 0, 1, 1, 32⟩]

theorem detect_ws3 : detect_text_regions (.ok ws3) = boxes3 := by decide

theorem mean_boxes3 :
    (boxes3.map (fun b => b.confidence)).sum / (boxes3.length : ℚ) = 94/3 := by
  norm_num [boxes3]

theorem pyRound2_mean3 : pyRound2 (94/3) = 3133/100 := by
  unfold pyRound2 pyRoundInt
  rw [show ((94:ℚ)/3 * 100) = 9400/3 by norm_num]
  rw [show ⌊(9400:ℚ)/3⌋ = 3133 by norm_num]
  rw [if_pos (by norm_num)]
  norm_num

theorem pyRound2_zero : pyRound2 0 = 0 := by
  unfold pyRound2 pyRoundInt
  norm_num

/-- C6 counterexample: with engine words of confidences 31, 31, 32 the
response reports `round(94/3, 2) = 31.33`, which is not the arithmetic mean
`94/3` of the returned boxes' confidences — the reported value is rounded to
two decimals. -/
theorem claim_C6_counterexample :
    respAvg (process_ocr (some cimg1) (.ok ws3) (.ok "x") (.ok "y") "enc")
      ≠ ((respBoxes (process_ocr (some cimg1) (.ok ws3) (.ok "x") (.ok "y") "enc")).map
            (fun b => b.confidence)).sum
          / ((respBoxes (process_ocr (some cimg1) (.ok ws3) (.ok "x") (.ok "y") "enc")).length
              : ℚ) := by
  simp only [process_ocr, process_ocr_try, respAvg, respBoxes, detect_ws3, mean_boxes3]
  rw [if_neg (by norm_num [boxes3])]
  rw [pyRound2_mean3]
  norm_num

/-- C6 (corrected): the reported `average_confidence` equals the arithmetic
mean of the returned boxes' confidences ROUNDED TO TWO DECIMALS (Python
`round(_, 2)`, half to even), and equals 0 when the box list is empty. -/
theorem claim_C6_amended (img : ColorImage) (dataRes : Except String (List OcrWord))
    (r1 r2 : Except String String) (encoded : String) (d : OcrData)
    (h : process_ocr (some img) dataRes r1 r2 encoded = .ok d) :
    d.average_confidence
        = pyRound2 (if d.text_boxes = [] then 0
            else ((d.text_boxes.map (fun b => b.confidence)).sum)
              / (d.text_boxes.length : ℚ)) ∧
    (d.text_boxes = [] → d.average_confidence = 0) := by
  simp only [process_ocr, process_ocr_try] at h
  rw [Except.ok.injEq] at h
  subst h
  refine ⟨?_, ?_⟩
  · by_cases htb : detect_text_regions dataRes = []
    · simp [htb]
    · simp [htb, List.isEmpty_iff]
  · intro htb
    have htb2 : detect_text_regions dataRes = [] := htb
    show pyRound2 _ = 0
    rw [htb2]
    simp [pyRound2_zero]

/-- The success payload for a request whose three engine invocations all
fail: no text, no boxes, zero average. -/
def d0 : OcrData :=
  ⟨"Tidak dapat mendeteksi teks", 0, 0, [], "data:image/jpeg;base64,enc", 0⟩

/-- C6 witness: the amended claim at a concrete request whose engine calls
all raise, so the box list is empty and the reported average is 0. -/
theorem claim_C6_amended_witness :
    d0.average_confidence
        = pyRound2 (if d0.text_boxes = [] then 0
            else ((d0.text_boxes.map (fun b => b.confidence)).sum)
              / (d0.text_boxes.length : ℚ)) ∧
    (d0.text_boxes = [] → d0.average_confidence = 0) :=
  claim_C6_amended cimg1 (.error "a") (.error "a") (.error "a") "enc" d0 (by
    have hdet : detect_text_regions (Except.error "a" : Except String (List OcrWord))
        = [] := rfl
    have hex : extract_text (Except.error "a") (Except.error "a") = "" := rfl
    simp only [process_ocr, process_ocr_try, hdet, hex]
    norm_num [d0, pyRound2_zero]
    decide)
